import Mathlib

/-!
Verification of the cycle-management state machine of the `soulsy` item-cycling
HUD controller: the `Controller` event dispatch from
`src/controller/control.rs`, together with the cycle data structures
(`CycleEntry`, `CycleData` and its `advance`/`toggle` operations) which are
declared in a module not present in the excerpt and are therefore modelled
from the specification.

External collaborators (settings store, UI-transition query/command,
visibility command, notification sink, persistent store) are passed in as
explicit parameters and observable-effect records, so that each boundary
call becomes a pure function from (state, collaborator answers) to
(response, new state, effects).
-/

namespace Soulsy

/-- The closed action enumeration of the controller: the four slots, the
activate and show/hide actions, and the catch-all for unbound keys. -/
inductive Action where
  | Power
  | Utility
  | Left
  | Right
  | Activate
  | ShowHide
  | Irrelevant
deriving DecidableEq, Repr

/-- Modelled from the spec: `CycleEntry` is an immutable identity-bearing
value for one favorited item — a stable identifier, a display name, and
presentation hints (icon category, color). Equality is by full value; the
default is the sentinel "no item" entry. The concrete struct lives in the
`cycles` module, which is not part of the excerpt. -/
structure CycleEntry where
  form_string : String
  name : String
  icon_kind : Nat
  color : Nat
deriving DecidableEq, Repr

instance : Inhabited CycleEntry :=
  ⟨⟨"", "", 0, 0⟩⟩

/-- The sentinel "empty" entry (the Rust `CycleEntry::default()`). -/
def CycleEntry.empty : CycleEntry :=
  ⟨"", "", 0, 0⟩

/-- Modelled from the spec: `CycleData` owns four ordered, duplicate-free
rotations of entries, one per slot. The concrete struct lives in the
`cycles` module, which is not part of the excerpt. -/
structure CycleData where
  power : List CycleEntry
  utility : List CycleEntry
  left : List CycleEntry
  right : List CycleEntry
deriving DecidableEq, Repr

/-- The `Default` value of `CycleData`: all four rotations empty. -/
def CycleData.empty : CycleData :=
  ⟨[], [], [], []⟩

instance : Inhabited CycleData :=
  ⟨CycleData.empty⟩

/-- The sequence a given slot action names inside a `CycleData`; non-slot
actions name no sequence and get the empty one. -/
def CycleData.slotList (cd : CycleData) (which : Action) : List CycleEntry :=
  match which with
  | Action.Power => cd.power
  | Action.Utility => cd.utility
  | Action.Left => cd.left
  | Action.Right => cd.right
  | _ => []

/-- Modelled from the spec: the rotation step of `CycleData::advance` on a
single slot sequence. Rotates the sequence left by `distance` positions,
reduced modulo the length (the first `distance mod length` elements move to
the end, relative order preserved), and peeks the new top; an empty sequence
is returned untouched together with the sentinel empty entry. -/
def advanceList (xs : List CycleEntry) (distance : Nat) : CycleEntry × List CycleEntry :=
  if xs.isEmpty then
    (CycleEntry.empty, xs)
  else
    let k := distance % xs.length
    let rotated := xs.drop k ++ xs.take k
    (rotated.headD CycleEntry.empty, rotated)

/-- Modelled from the spec: `CycleData::advance(slot, distance)` rotates the
named slot's sequence left by `distance` and returns the new top entry; on an
empty sequence it returns the sentinel empty entry and performs no rotation.
Only this slot's sequence is touched. -/
def CycleData.advance (cd : CycleData) (which : Action) (distance : Nat) :
    CycleEntry × CycleData :=
  match which with
  | Action.Power =>
      let r := advanceList cd.power distance
      (r.1, { cd with power := r.2 })
  | Action.Utility =>
      let r := advanceList cd.utility distance
      (r.1, { cd with utility := r.2 })
  | Action.Left =>
      let r := advanceList cd.left distance
      (r.1, { cd with left := r.2 })
  | Action.Right =>
      let r := advanceList cd.right distance
      (r.1, { cd with right := r.2 })
  | _ => (CycleEntry.empty, cd)

/-- The menu-event response enumeration signalled back to the host UI. -/
inductive MenuEventResponse where
  | ItemAdded
  | ItemRemoved
  | NoChange
deriving DecidableEq, Repr

/-- Remove the first occurrence of `e` from the list, if any (the
`position` + `remove(idx)` step of the toggle operation). -/
def removeFirst : List CycleEntry → CycleEntry → List CycleEntry
  | [], _ => []
  | x :: xs, e => if x = e then xs else x :: removeFirst xs e

/-- Modelled from the spec: the membership step of `CycleData::toggle` on a
single slot sequence. If an entry equal (full-value equality) to `item`
already exists in the sequence, remove it and report `ItemRemoved`;
otherwise append `item` at the end and report `ItemAdded`. -/
def toggleList (xs : List CycleEntry) (item : CycleEntry) :
    MenuEventResponse × List CycleEntry :=
  if item ∈ xs then
    (MenuEventResponse.ItemRemoved, removeFirst xs item)
  else
    (MenuEventResponse.ItemAdded, xs ++ [item])

/-- Modelled from the spec: `CycleData::toggle(slot, entry)` adds the entry
to the named slot's sequence if absent, removes it if present; actions that
name no slot fall through to a `NoChange` result without touching anything. -/
def CycleData.toggle (cd : CycleData) (which : Action) (item : CycleEntry) :
    MenuEventResponse × CycleData :=
  match which with
  | Action.Power =>
      let r := toggleList cd.power item
      (r.1, { cd with power := r.2 })
  | Action.Utility =>
      let r := toggleList cd.utility item
      (r.1, { cd with utility := r.2 })
  | Action.Left =>
      let r := toggleList cd.left item
      (r.1, { cd with left := r.2 })
  | Action.Right =>
      let r := toggleList cd.right item
      (r.1, { cd with right := r.2 })
  | _ => (MenuEventResponse.NoChange, cd)

/-- The error returned by `CycleData::read` when the backing store is
missing or corrupt. -/
structure LoadError where
  msg : String
deriving DecidableEq, Repr

/-- The button event delivered by the host; `handle_key_event` reads
`IsDown`/`IsUp` into unused locals, so the fields never influence the
result. -/
structure ButtonEvent where
  is_down : Bool
  is_up : Bool
deriving DecidableEq, Repr

/-- The response returned across the boundary after a key event. -/
structure KeyEventResponse where
  handled : Bool
  start_timer : Action
  stop_timer : Action
deriving DecidableEq, Repr

/-- The Rust `Default` for `KeyEventResponse`: not handled, both timer
fields `Irrelevant` (from the `impl Default` at the bottom of control.rs). -/
def KeyEventResponse.zero : KeyEventResponse :=
  ⟨false, Action.Irrelevant, Action.Irrelevant⟩

instance : Inhabited KeyEventResponse :=
  ⟨KeyEventResponse.zero⟩

/-- Observable calls made to host collaborators during `handle_key_event`:
whether `set_alpha_transition(true, 1.0)` was invoked and whether
`toggle_hud_visibility()` was invoked. -/
structure HostEffects where
  set_alpha : Bool
  hud_toggled : Bool
deriving DecidableEq, Repr

/-- No host collaborator invoked. -/
def HostEffects.none : HostEffects :=
  ⟨false, false⟩

/-- The controller state: the active cycles plus the four speculative
currently-equipped entries. -/
structure Controller where
  cycles : CycleData
  equipped_power : Option CycleEntry
  equipped_utility : Option CycleEntry
  equipped_left : Option CycleEntry
  equipped_right : Option CycleEntry
deriving DecidableEq, Repr

/-- `Controller::new()`: cycle data is `CycleData::read().unwrap_or_default()`;
the equipped fields take their `Default` (`None`). The outcome of the
persistent-store read is passed in explicitly. -/
def Controller.new (read_result : Except LoadError CycleData) : Controller :=
  { cycles :=
      match read_result with
      | Except.ok cd => cd
      | Except.error _ => CycleData.empty
    equipped_power := none
    equipped_utility := none
    equipped_left := none
    equipped_right := none }

/-- `Controller::equipped_in_slot`: pure read of the equipped entry tracked
for a slot, with the sentinel empty entry substituted for `None` and for any
non-slot action. -/
def Controller.equipped_in_slot (c : Controller) (slot : Action) : CycleEntry :=
  match slot with
  | Action.Power => c.equipped_power.getD CycleEntry.empty
  | Action.Utility => c.equipped_utility.getD CycleEntry.empty
  | Action.Left => c.equipped_left.getD CycleEntry.empty
  | Action.Right => c.equipped_right.getD CycleEntry.empty
  | _ => CycleEntry.empty

/-- `Controller::handle_key_event(action, button)`. The two collaborator
answers read inside the body — `user_settings().fade()` and
`get_is_transitioning()` — are passed in as `fade` and `is_fading`. The fade
gate comes first: for any action other than `ShowHide`, if fade is enabled
and no transition is running, the event is consumed by a
`set_alpha_transition(true, 1.0)` call and a `handled` response with default
timer fields. Otherwise dispatch on the action as in the `match`. -/
def Controller.handle_key_event (c : Controller) (fade is_fading : Bool)
    (action : Action) (_button : ButtonEvent) :
    KeyEventResponse × Controller × HostEffects :=
  if action ≠ Action.ShowHide ∧ fade = true ∧ is_fading = false then
    ({ handled := true, start_timer := Action.Irrelevant, stop_timer := Action.Irrelevant },
     c, { set_alpha := true, hud_toggled := false })
  else
    match action with
    | Action.Power =>
        let next := c.cycles.advance Action.Power 1
        ({ handled := true, start_timer := Action.Power, stop_timer := Action.Irrelevant },
         { c with cycles := next.2 }, HostEffects.none)
    | Action.Left =>
        let next := c.cycles.advance Action.Left 1
        ({ handled := true, start_timer := Action.Left, stop_timer := Action.Irrelevant },
         { c with cycles := next.2 }, HostEffects.none)
    | Action.Right =>
        let next := c.cycles.advance Action.Right 1
        ({ handled := true, start_timer := Action.Right, stop_timer := Action.Irrelevant },
         { c with cycles := next.2 }, HostEffects.none)
    | Action.Utility =>
        let next := c.cycles.advance Action.Utility 1
        ({ handled := true, start_timer := Action.Utility, stop_timer := Action.Irrelevant },
         { c with cycles := next.2 }, HostEffects.none)
    | Action.Activate =>
        ({ handled := true, start_timer := Action.Irrelevant, stop_timer := Action.Utility },
         c, HostEffects.none)
    | Action.ShowHide =>
        ({ handled := true, start_timer := Action.Irrelevant, stop_timer := Action.Irrelevant },
         c, { set_alpha := false, hud_toggled := true })
    | _ => (KeyEventResponse.zero, c, HostEffects.none)

/-- Observable effects of `Controller::toggle_item`: the notification string
sent to `notify_player`, and the outcome of the `cycles.write()` call —
`none` when no write was attempted, `some ok` when a write was attempted and
the persistence collaborator answered `ok`. -/
structure MenuEffects where
  notified : String
  wrote : Option Bool
deriving DecidableEq, Repr

/-- `Controller::toggle_item(action, item)`: delegate to `CycleData::toggle`,
synthesize and emit the notification message, and — only when membership
actually changed — attempt to persist the cycle data, logging and swallowing
any write failure. The persistence collaborator's answer is passed in as
`write_ok` and influences nothing but the log. -/
def Controller.toggle_item (c : Controller) (write_ok : Bool)
    (action : Action) (item : CycleEntry) :
    MenuEventResponse × Controller × MenuEffects :=
  let r := c.cycles.toggle action item
  let result := r.1
  let verb :=
    match result with
    | MenuEventResponse.ItemAdded => "added to"
    | MenuEventResponse.ItemRemoved => "removed from"
    | _ => "not changed in"
  let cyclename :=
    match action with
    | Action.Power => "powers"
    | Action.Left => "left-hand"
    | Action.Right => "right-hand"
    | Action.Utility => "utility items"
    | _ => "any"
  let message := item.name ++ " " ++ verb ++ " " ++ cyclename ++ " cycle"
  let attempted :=
    result = MenuEventResponse.ItemAdded ∨ result = MenuEventResponse.ItemRemoved
  (result,
   { c with cycles := r.2 },
   { notified := message
     wrote := if attempted then some write_ok else none })

/-- The duplicate-free invariant on cycle data: no slot sequence contains
two equal entries. -/
def CycleData.NodupInv (cd : CycleData) : Prop :=
  cd.power.Nodup ∧ cd.utility.Nodup ∧ cd.left.Nodup ∧ cd.right.Nodup

/-! ### Helper lemmas about the single-slot rotation and toggle steps -/

theorem advanceList_snd (xs : List CycleEntry) (d : Nat) :
    (advanceList xs d).2 = xs.drop (d % xs.length) ++ xs.take (d % xs.length) := by
  cases xs with
  | nil => simp [advanceList]
  | cons x xs => simp [advanceList]

theorem drop_append_take_perm (xs : List CycleEntry) (k : Nat) :
    (xs.drop k ++ xs.take k).Perm xs := by
  refine List.perm_append_comm.trans ?_
  rw [List.take_append_drop]

theorem advanceList_perm (xs : List CycleEntry) (d : Nat) :
    ((advanceList xs d).2).Perm xs := by
  rw [advanceList_snd]
  exact drop_append_take_perm xs (d % xs.length)

theorem advanceList_length_self (xs : List CycleEntry) :
    (advanceList xs xs.length).2 = xs := by
  rw [advanceList_snd, Nat.mod_self]
  simp

theorem advanceList_zero (xs : List CycleEntry) :
    advanceList xs 0 = (xs.headD CycleEntry.empty, xs) := by
  cases xs with
  | nil => simp [advanceList]
  | cons x xs => simp [advanceList]

theorem advanceList_nil (d : Nat) :
    advanceList [] d = (CycleEntry.empty, []) := by
  simp [advanceList]

theorem removeFirst_sublist (xs : List CycleEntry) (e : CycleEntry) :
    List.Sublist (removeFirst xs e) xs := by
  induction xs with
  | nil => simp [removeFirst]
  | cons x xs ih =>
      rw [removeFirst]
      split
      · exact List.sublist_cons_self x xs
      · exact ih.cons₂ x

theorem removeFirst_append_singleton (xs : List CycleEntry) (e : CycleEntry)
    (h : e ∉ xs) : removeFirst (xs ++ [e]) e = xs := by
  induction xs with
  | nil => simp [removeFirst]
  | cons x xs ih =>
      have hxe : x ≠ e := by
        rintro rfl
        exact h (List.mem_cons_self x xs)
      have hx : e ∉ xs := fun hm => h (List.mem_cons_of_mem x hm)
      simp [removeFirst, hxe, ih hx]

theorem toggleList_not_mem (xs : List CycleEntry) (e : CycleEntry) (h : e ∉ xs) :
    toggleList xs e = (MenuEventResponse.ItemAdded, xs ++ [e]) := by
  simp [toggleList, h]

theorem toggleList_mem (xs : List CycleEntry) (e : CycleEntry) (h : e ∈ xs) :
    toggleList xs e = (MenuEventResponse.ItemRemoved, removeFirst xs e) := by
  simp [toggleList, h]

theorem toggleList_nodup (xs : List CycleEntry) (e : CycleEntry) (h : xs.Nodup) :
    ((toggleList xs e).2).Nodup := by
  by_cases hm : e ∈ xs
  · rw [toggleList_mem xs e hm]
    exact (removeFirst_sublist xs e).nodup h
  · rw [toggleList_not_mem xs e hm]
    refine h.append (List.nodup_singleton e) ?_
    intro a ha hb
    rw [List.mem_singleton] at hb
    subst hb
    exact hm ha

theorem toggleList_added_count (xs : List CycleEntry) (e : CycleEntry)
    (h : (toggleList xs e).1 = MenuEventResponse.ItemAdded) :
    ((toggleList xs e).2).count e = 1 := by
  by_cases hm : e ∈ xs
  · rw [toggleList_mem xs e hm] at h
    exact absurd h (by simp)
  · rw [toggleList_not_mem xs e hm]
    simp [List.count_append, List.count_eq_zero_of_not_mem hm]

theorem advanceList_nodup (xs : List CycleEntry) (d : Nat) (h : xs.Nodup) :
    ((advanceList xs d).2).Nodup :=
  (advanceList_perm xs d).nodup_iff.mpr h

theorem toggle_nodupInv (cd : CycleData) (a : Action) (e : CycleEntry)
    (h : cd.NodupInv) : ((cd.toggle a e).2).NodupInv := by
  obtain ⟨h1, h2, h3, h4⟩ := h
  cases a <;>
    simp only [CycleData.toggle, CycleData.NodupInv] <;>
    exact ⟨by first | exact toggleList_nodup _ _ h1 | exact h1,
           by first | exact toggleList_nodup _ _ h2 | exact h2,
           by first | exact toggleList_nodup _ _ h3 | exact h3,
           by first | exact toggleList_nodup _ _ h4 | exact h4⟩

theorem advance_nodupInv (cd : CycleData) (a : Action) (d : Nat)
    (h : cd.NodupInv) : ((cd.advance a d).2).NodupInv := by
  obtain ⟨h1, h2, h3, h4⟩ := h
  cases a <;>
    simp only [CycleData.advance, CycleData.NodupInv] <;>
    exact ⟨by first | exact advanceList_nodup _ _ h1 | exact h1,
           by first | exact advanceList_nodup _ _ h2 | exact h2,
           by first | exact advanceList_nodup _ _ h3 | exact h3,
           by first | exact advanceList_nodup _ _ h4 | exact h4⟩

/-! ### Claim theorems -/

/-- Claim C1: for every slot action (Power, Left, Right, or Utility), when the
fade gate does not consume the event (fade is disabled in settings or a
transition is already running), `handle_key_event` advances that slot's cycle
by exactly 1 and returns a response with `handled = true`, `start_timer` equal
to that same slot's action, and `stop_timer = Irrelevant`. -/
theorem c1_slot_key_event (c : Controller) (fade is_fading : Bool)
    (a : Action) (b : ButtonEvent)
    (hslot : a = Action.Power ∨ a = Action.Left ∨ a = Action.Right ∨ a = Action.Utility)
    (hgate : fade = false ∨ is_fading = true) :
    c.handle_key_event fade is_fading a b =
      ({ handled := true, start_timer := a, stop_timer := Action.Irrelevant },
       { c with cycles := (c.cycles.advance a 1).2 },
       HostEffects.none) := by
  rcases hgate with rfl | rfl <;>
    rcases hslot with rfl | rfl | rfl | rfl <;>
    simp [Controller.handle_key_event]

/-- Witness for C1 at a concrete input: controller with one entry in the left
cycle, fade disabled, a Left key event. -/
theorem c1_witness :
    Controller.handle_key_event
        ⟨⟨[], [], [⟨"ff00", "x", 1, 2⟩], []⟩, none, none, none, none⟩
        false false Action.Left ⟨true, false⟩ =
      ({ handled := true, start_timer := Action.Left, stop_timer := Action.Irrelevant },
       ⟨⟨[], [], [⟨"ff00", "x", 1, 2⟩], []⟩, none, none, none, none⟩,
       HostEffects.none) := by
  have h := c1_slot_key_event
    ⟨⟨[], [], [⟨"ff00", "x", 1, 2⟩], []⟩, none, none, none, none⟩
    false false Action.Left ⟨true, false⟩
    (Or.inr (Or.inl rfl)) (Or.inl rfl)
  simpa [CycleData.advance, advanceList] using h

/-- Claim C2: for every non-ShowHide action, if fade is enabled and the HUD is
not currently transitioning, `handle_key_event` consumes the event: it invokes
`set_alpha_transition` and returns `(handled := true)` with both timer fields
`Irrelevant`, without advancing any cycle or changing the controller. -/
theorem c2_fade_gate (c : Controller) (fade is_fading : Bool)
    (a : Action) (b : ButtonEvent)
    (hne : a ≠ Action.ShowHide) (hf : fade = true) (ht : is_fading = false) :
    c.handle_key_event fade is_fading a b =
      ({ handled := true, start_timer := Action.Irrelevant, stop_timer := Action.Irrelevant },
       c, { set_alpha := true, hud_toggled := false }) := by
  subst hf
  subst ht
  unfold Controller.handle_key_event
  rw [if_pos ⟨hne, rfl, rfl⟩]

/-- Witness for C2 at a concrete input: Action.Power with fade on and no
transition running. -/
theorem c2_witness :
    Controller.handle_key_event
        ⟨⟨[], [], [], []⟩, none, none, none, none⟩
        true false Action.Power ⟨true, false⟩ =
      ({ handled := true, start_timer := Action.Irrelevant, stop_timer := Action.Irrelevant },
       ⟨⟨[], [], [], []⟩, none, none, none, none⟩,
       { set_alpha := true, hud_toggled := false }) :=
  c2_fade_gate ⟨⟨[], [], [], []⟩, none, none, none, none⟩ true false
    Action.Power ⟨true, false⟩ (by simp) rfl rfl

/-- Counterexample to C3 as stated: with fade enabled and no transition
running, an `Irrelevant` key event is consumed by the fade gate — the
response has `handled = true` (not the zero-value response) and the
`set_alpha_transition` collaborator is invoked. -/
theorem c3_counterexample :
    (Controller.handle_key_event ⟨⟨[], [], [], []⟩, none, none, none, none⟩
        true false Action.Irrelevant ⟨false, false⟩).1.handled = true ∧
    (Controller.handle_key_event ⟨⟨[], [], [], []⟩, none, none, none, none⟩
        true false Action.Irrelevant ⟨false, false⟩).2.2.set_alpha = true := by
  constructor <;> rfl

/-- Claim C3 as amended: whenever the fade gate does not consume the event
(fade disabled or a transition already running), `handle_key_event` with
`Action.Irrelevant` is a safe no-op: zero-value response, unchanged
controller state, and no host collaborator invoked. -/
theorem c3_irrelevant_noop (c : Controller) (fade is_fading : Bool)
    (b : ButtonEvent) (hgate : fade = false ∨ is_fading = true) :
    c.handle_key_event fade is_fading Action.Irrelevant b =
      (KeyEventResponse.zero, c, HostEffects.none) := by
  rcases hgate with rfl | rfl <;>
    simp [Controller.handle_key_event]

/-- Witness for the amended C3 at a concrete input: fade disabled. -/
theorem c3_witness :
    Controller.handle_key_event ⟨⟨[], [], [], []⟩, none, none, none, none⟩
        false false Action.Irrelevant ⟨true, true⟩ =
      (KeyEventResponse.zero, ⟨⟨[], [], [], []⟩, none, none, none, none⟩,
       HostEffects.none) :=
  c3_irrelevant_noop ⟨⟨[], [], [], []⟩, none, none, none, none⟩ false false
    ⟨true, true⟩ (Or.inl rfl)

/-- Claim C4: `toggle_item` attempts the persistence write exactly when the
toggle result is `ItemAdded` or `ItemRemoved`; the returned result and the
new controller state match the in-memory toggle and are identical whether the
write succeeds or fails. -/
theorem c4_toggle_item_persistence (c : Controller) (write_ok : Bool)
    (a : Action) (i : CycleEntry) :
    (c.toggle_item write_ok a i).1 = (c.cycles.toggle a i).1 ∧
    (c.toggle_item write_ok a i).2.1.cycles = (c.cycles.toggle a i).2 ∧
    ((c.toggle_item write_ok a i).2.2.wrote = some write_ok ↔
      ((c.cycles.toggle a i).1 = MenuEventResponse.ItemAdded ∨
       (c.cycles.toggle a i).1 = MenuEventResponse.ItemRemoved)) ∧
    ((c.toggle_item write_ok a i).2.2.wrote = none ↔
      ¬((c.cycles.toggle a i).1 = MenuEventResponse.ItemAdded ∨
        (c.cycles.toggle a i).1 = MenuEventResponse.ItemRemoved)) ∧
    (c.toggle_item true a i).1 = (c.toggle_item false a i).1 ∧
    (c.toggle_item true a i).2.1 = (c.toggle_item false a i).2.1 := by
  by_cases hres :
      (c.cycles.toggle a i).1 = MenuEventResponse.ItemAdded ∨
      (c.cycles.toggle a i).1 = MenuEventResponse.ItemRemoved <;>
    simp [Controller.toggle_item, hres]

/-- Claim C5: for every slot and distance, `advance` performs a stable
circular left rotation by the distance reduced modulo the sequence length:
the new sequence is the drop/take rotation of the old one (hence a
permutation with identical multiset of entries), advancing by the sequence
length restores the original order, and distance 0 is a no-op returning the
current top. -/
theorem c5_advance_rotation (cd : CycleData) (a : Action) (d : Nat)
    (hslot : a = Action.Power ∨ a = Action.Utility ∨ a = Action.Left ∨ a = Action.Right) :
    (cd.advance a d).2.slotList a =
      (cd.slotList a).drop (d % (cd.slotList a).length) ++
        (cd.slotList a).take (d % (cd.slotList a).length) ∧
    ((cd.advance a d).2.slotList a).Perm (cd.slotList a) ∧
    (cd.advance a ((cd.slotList a).length)).2 = cd ∧
    cd.advance a 0 = ((cd.slotList a).headD CycleEntry.empty, cd) := by
  rcases hslot with rfl | rfl | rfl | rfl <;>
    refine ⟨?_, ?_, ?_, ?_⟩ <;>
    simp [CycleData.advance, CycleData.slotList, advanceList_snd,
          advanceList_length_self, advanceList_zero, drop_append_take_perm]

/-- Witness for C5 at a concrete input: a two-element right-hand cycle
advanced by distance 3. -/
theorem c5_witness :
    (CycleData.advance ⟨[], [], [], [⟨"a", "a", 0, 0⟩, ⟨"b", "b", 1, 1⟩]⟩
        Action.Right 3).2.slotList Action.Right =
      ((⟨[], [], [], [⟨"a", "a", 0, 0⟩, ⟨"b", "b", 1, 1⟩]⟩ : CycleData).slotList
          Action.Right).drop (3 % 2) ++
        ((⟨[], [], [], [⟨"a", "a", 0, 0⟩, ⟨"b", "b", 1, 1⟩]⟩ : CycleData).slotList
          Action.Right).take (3 % 2) :=
  (c5_advance_rotation ⟨[], [], [], [⟨"a", "a", 0, 0⟩, ⟨"b", "b", 1, 1⟩]⟩
    Action.Right 3 (Or.inr (Or.inr (Or.inr rfl)))).1

/-- Claim C6: toggles that report `ItemAdded` leave the entry appearing
exactly once, and both `toggle` and `advance` preserve the
no-duplicates-within-a-slot invariant of the cycle data. -/
theorem c6_no_duplicates (cd : CycleData) (a : Action) (e : CycleEntry) (d : Nat)
    (xs : List CycleEntry) (hinv : cd.NodupInv) :
    ((toggleList xs e).1 = MenuEventResponse.ItemAdded →
      ((toggleList xs e).2).count e = 1) ∧
    ((cd.toggle a e).2).NodupInv ∧
    ((cd.advance a d).2).NodupInv :=
  ⟨toggleList_added_count xs e, toggle_nodupInv cd a e hinv, advance_nodupInv cd a d hinv⟩

/-- Witness for C6 at a concrete input: a one-element power cycle satisfying
the invariant, toggling a fresh entry into a singleton list. -/
theorem c6_witness :
    CycleData.NodupInv ⟨[⟨"a", "a", 0, 0⟩], [], [], []⟩ ∧
    (((toggleList [⟨"a", "a", 0, 0⟩] ⟨"b", "b", 1, 1⟩).1 = MenuEventResponse.ItemAdded →
      ((toggleList [⟨"a", "a", 0, 0⟩] ⟨"b", "b", 1, 1⟩).2).count ⟨"b", "b", 1, 1⟩ = 1) ∧
     ((CycleData.toggle ⟨[⟨"a", "a", 0, 0⟩], [], [], []⟩ Action.Power ⟨"b", "b", 1, 1⟩).2).NodupInv ∧
     ((CycleData.advance ⟨[⟨"a", "a", 0, 0⟩], [], [], []⟩ Action.Power 1).2).NodupInv) :=
  ⟨by simp [CycleData.NodupInv],
   c6_no_duplicates ⟨[⟨"a", "a", 0, 0⟩], [], [], []⟩ Action.Power ⟨"b", "b", 1, 1⟩ 1
     [⟨"a", "a", 0, 0⟩] (by simp [CycleData.NodupInv])⟩

/-- Claim C7: toggle is its own inverse: for an entry not initially present,
the first toggle appends it (reporting `ItemAdded`) and a second toggle
removes it (reporting `ItemRemoved`), restoring exactly the original
sequence. -/
theorem c7_toggle_inverse (xs : List CycleEntry) (e : CycleEntry) (h : e ∉ xs) :
    toggleList xs e = (MenuEventResponse.ItemAdded, xs ++ [e]) ∧
    toggleList (xs ++ [e]) e = (MenuEventResponse.ItemRemoved, xs) := by
  refine ⟨toggleList_not_mem xs e h, ?_⟩
  have hm : e ∈ xs ++ [e] := by simp
  rw [toggleList_mem _ _ hm, removeFirst_append_singleton xs e h]

/-- Witness for C7 at a concrete input: adding then removing a fresh entry
around a one-element sequence. -/
theorem c7_witness :
    toggleList [⟨"a", "a", 0, 0⟩] ⟨"b", "b", 1, 1⟩ =
      (MenuEventResponse.ItemAdded, [⟨"a", "a", 0, 0⟩, ⟨"b", "b", 1, 1⟩]) ∧
    toggleList [⟨"a", "a", 0, 0⟩, ⟨"b", "b", 1, 1⟩] ⟨"b", "b", 1, 1⟩ =
      (MenuEventResponse.ItemRemoved, [⟨"a", "a", 0, 0⟩]) := by
  have h := c7_toggle_inverse [⟨"a", "a", 0, 0⟩] ⟨"b", "b", 1, 1⟩ (by simp)
  simpa using h

/-- Claim C8: controller construction never fails: it is a total function of
the read outcome; on a failed read it produces empty cycles for all four
slots (and no tracked equips), and on a successful read it adopts the read
data. -/
theorem c8_load_resilience (err : LoadError) (cd : CycleData) :
    (Controller.new (Except.error err)).cycles.power = [] ∧
    (Controller.new (Except.error err)).cycles.utility = [] ∧
    (Controller.new (Except.error err)).cycles.left = [] ∧
    (Controller.new (Except.error err)).cycles.right = [] ∧
    (Controller.new (Except.error err)).equipped_power = none ∧
    (Controller.new (Except.error err)).equipped_utility = none ∧
    (Controller.new (Except.error err)).equipped_left = none ∧
    (Controller.new (Except.error err)).equipped_right = none ∧
    (Controller.new (Except.ok cd)).cycles = cd := by
  simp [Controller.new, CycleData.empty]

/-- Claim C9: empty-slot safety: `advance` on an empty slot sequence returns
the sentinel empty entry and changes nothing; for every controller,
`equipped_in_slot` returns the sentinel empty entry unconditionally on
Activate, ShowHide and Irrelevant, and on each slot action whose own
equipped field tracks nothing — regardless of what the other slots track. -/
theorem c9_empty_slot_safety (cd : CycleData) (a : Action) (d : Nat)
    (c : Controller) (hemp : cd.slotList a = []) :
    cd.advance a d = (CycleEntry.empty, cd) ∧
    c.equipped_in_slot Action.Activate = CycleEntry.empty ∧
    c.equipped_in_slot Action.ShowHide = CycleEntry.empty ∧
    c.equipped_in_slot Action.Irrelevant = CycleEntry.empty ∧
    (c.equipped_power = none → c.equipped_in_slot Action.Power = CycleEntry.empty) ∧
    (c.equipped_utility = none → c.equipped_in_slot Action.Utility = CycleEntry.empty) ∧
    (c.equipped_left = none → c.equipped_in_slot Action.Left = CycleEntry.empty) ∧
    (c.equipped_right = none → c.equipped_in_slot Action.Right = CycleEntry.empty) := by
  constructor
  · obtain ⟨p, u, l, r⟩ := cd
    cases a <;> simp only [CycleData.slotList] at hemp <;>
      first
        | (subst hemp; simp [CycleData.advance, advanceList])
        | simp [CycleData.advance]
  · refine ⟨rfl, rfl, rfl, ?_, ?_, ?_, ?_⟩ <;>
      intro h <;> simp [Controller.equipped_in_slot, h]

/-- Witness for C9 at a concrete input: advancing the empty left cycle by 5,
and querying Activate and the untracked utility slot of a controller that
does track a power equip. -/
theorem c9_witness :
    CycleData.advance ⟨[], [], [], []⟩ Action.Left 5 =
      (CycleEntry.empty, ⟨[], [], [], []⟩) ∧
    Controller.equipped_in_slot
      ⟨⟨[], [], [], []⟩, some ⟨"a", "a", 0, 0⟩, none, none, none⟩
      Action.Activate = CycleEntry.empty ∧
    Controller.equipped_in_slot
      ⟨⟨[], [], [], []⟩, some ⟨"a", "a", 0, 0⟩, none, none, none⟩
      Action.Utility = CycleEntry.empty := by
  have h := c9_empty_slot_safety ⟨[], [], [], []⟩ Action.Left 5
    ⟨⟨[], [], [], []⟩, some ⟨"a", "a", 0, 0⟩, none, none, none⟩ rfl
  exact ⟨h.1, h.2.1, h.2.2.2.2.2.1 rfl⟩

/-- Claim C10: neither `handle_key_event` nor `toggle_item` ever writes the
four equipped-entry fields: for every action, button event, collaborator
answer and item, the equipped fields of the resulting controller equal those
of the original. -/
theorem c10_equipped_frame (c : Controller) (fade is_fading : Bool)
    (a : Action) (b : ButtonEvent) (write_ok : Bool) (i : CycleEntry) :
    ((c.handle_key_event fade is_fading a b).2.1.equipped_power = c.equipped_power ∧
     (c.handle_key_event fade is_fading a b).2.1.equipped_utility = c.equipped_utility ∧
     (c.handle_key_event fade is_fading a b).2.1.equipped_left = c.equipped_left ∧
     (c.handle_key_event fade is_fading a b).2.1.equipped_right = c.equipped_right) ∧
    ((c.toggle_item write_ok a i).2.1.equipped_power = c.equipped_power ∧
     (c.toggle_item write_ok a i).2.1.equipped_utility = c.equipped_utility ∧
     (c.toggle_item write_ok a i).2.1.equipped_left = c.equipped_left ∧
     (c.toggle_item write_ok a i).2.1.equipped_right = c.equipped_right) := by
  refine ⟨?_, ⟨rfl, rfl, rfl, rfl⟩⟩
  unfold Controller.handle_key_event
  by_cases hg : a ≠ Action.ShowHide ∧ fade = true ∧ is_fading = false
  · rw [if_pos hg]
    exact ⟨rfl, rfl, rfl, rfl⟩
  · rw [if_neg hg]
    cases a <;> exact ⟨rfl, rfl, rfl, rfl⟩

end Soulsy
